import Mathlib

/-!
Shallow embedding of the `epicenter` event dispatcher crate
(`src/lib.rs`, `src/dispatchers/sync.rs`, `src/dispatchers/async.rs`,
`src/dispatchers/null.rs`).

Modelling conventions:

* A Rust `TypeId` is modelled as a `Nat`: a stable, comparable identity
  of an event shape.
* A type-erased event value (`&mut dyn Any` / `&dyn Any`) is modelled
  as `AnyEvent V`: a pair of its runtime type identity and a payload
  drawn from a fixed payload type `V`.  A typed listener
  (`FnMut(&mut Ev)` resp. the async `Fn(Ev) -> Future<()>`) is
  modelled as a pure function `V → V`: the transformation it applies
  to the event value it is handed.
* A `&mut` parameter is modelled value-in/value-out: a Rust function
  mutating `&mut Ev` becomes a Lean function returning the new event.
* The `RwLock` poisoning of `std::sync::RwLock` is modelled by a
  `poisoned` flag on the sync dispatcher; every operation first checks
  it, as the Rust code maps a poisoned-lock error to
  `Error::LockPoisoned` before touching the registry.
* In Rust, `dispatch<Ev>` receives `event : &mut Ev` (resp. `&Ev`),
  so the `TypeId::of::<Ev>()` used by the dispatch filter is exactly
  the runtime type identity of the event value; the model therefore
  filters by `ev.tid`.
* A listener entry stores both the `TypeId` tag recorded in its
  `event` field and the type identity the erased closure downcasts to
  (`evParam`); in the Rust source both come from the same type
  parameter `Ev` of `listen`, which the model captures by `listen`
  always creating entries with `event = evParam`.
-/

namespace Epicenter

/-- Runtime type identity of an event shape (Rust `std::any::TypeId`). -/
abbrev TypeId := Nat

/-- A type-erased event value (`dyn Any`): its runtime type identity
together with its payload. -/
structure AnyEvent (V : Type) where
  tid : TypeId
  payload : V
deriving DecidableEq, Repr

namespace Sync

/-- Error type of `src/dispatchers/sync.rs`. -/
inductive Error where
  | UnregisteredEvent
  | LockPoisoned
deriving DecidableEq, Repr

/-- A registered listener entry (struct `Listener` in `sync.rs`):
the `TypeId` tag of the event shape it was registered for, plus the
type-erased handler closure, defunctionalised into the type identity
`evParam` it downcasts to and the typed listener body `on_event`. -/
structure Listener (V : Type) where
  event : TypeId
  evParam : TypeId
  on_event : V → V

/-- The erased handler built in `Dispatcher::listen` (sync.rs lines
40-44): downcast the `&mut dyn Any` to the registered shape — failing
with `Error::UnregisteredEvent` when the runtime identity disagrees —
then run the typed listener on it. -/
def Listener.handler {V : Type} (l : Listener V) (ev : AnyEvent V) :
    Except Error (AnyEvent V) :=
  if ev.tid == l.evParam then
    Except.ok { ev with payload := l.on_event ev.payload }
  else
    Except.error Error.UnregisteredEvent

/-- The sync dispatcher: an insertion-ordered listener registry behind
a poisonable `RwLock`. -/
structure Dispatcher (V : Type) where
  listeners : List (Listener V)
  poisoned : Bool

/-- `Dispatcher::new`: empty registry, healthy lock. -/
def Dispatcher.new {V : Type} : Dispatcher V :=
  { listeners := [], poisoned := false }

/-- `Dispatcher::listen` (sync.rs lines 32-50): error out when the
lock is poisoned, otherwise append an entry whose tag and downcast
target both come from the type parameter `Ev`. -/
def Dispatcher.listen {V : Type} (d : Dispatcher V) (tid : TypeId)
    (on_event : V → V) : Except Error (Dispatcher V) :=
  if d.poisoned then
    Except.error Error.LockPoisoned
  else
    Except.ok { d with
      listeners := d.listeners ++ [⟨tid, tid, on_event⟩] }

/-- `Dispatcher::has_listeners` (sync.rs lines 57-61): error out when
the lock is poisoned, otherwise report whether any entry's tag equals
the queried type identity. -/
def Dispatcher.has_listeners {V : Type} (d : Dispatcher V)
    (tid : TypeId) : Except Error Bool :=
  if d.poisoned then
    Except.error Error.LockPoisoned
  else
    Except.ok (d.listeners.any (fun l => l.event == tid))

/-- The dispatch loop of `Dispatcher::dispatch` (sync.rs lines 70-78):
walk the registry in order; on each entry whose tag matches
`TypeId::of::<Ev>()` invoke its handler on the current event value,
threading the mutated event onward and propagating a handler error via
`?`.  Returns the sequence of entries actually invoked together with
the loop's result. -/
def dispatchGo {V : Type} (tid : TypeId) :
    List (Listener V) → AnyEvent V →
      List (Listener V) × Except Error (AnyEvent V)
  | [], ev => ([], Except.ok ev)
  | l :: ls, ev =>
    if l.event == tid then
      match l.handler ev with
      | Except.ok ev' =>
        let r := dispatchGo tid ls ev'
        (l :: r.1, r.2)
      | Except.error e => ([l], Except.error e)
    else
      dispatchGo tid ls ev

/-- `Dispatcher::dispatch` (sync.rs lines 69-81): take the write lock
(erroring with `LockPoisoned` when poisoned) and run the loop; the
returned event is the final state of the caller's `&mut Ev`. -/
def Dispatcher.dispatch {V : Type} (d : Dispatcher V) (ev : AnyEvent V) :
    Except Error (AnyEvent V) :=
  if d.poisoned then
    Except.error Error.LockPoisoned
  else
    (dispatchGo ev.tid d.listeners ev).2

/-- The sequence of listener entries a `dispatch` call invokes, in
invocation order (the observation of the same loop). -/
def Dispatcher.dispatchInvoked {V : Type} (d : Dispatcher V)
    (ev : AnyEvent V) : List (Listener V) :=
  if d.poisoned then [] else (dispatchGo ev.tid d.listeners ev).1

/-- Well-formedness of a registry: every entry's stored tag agrees
with the type identity its erased closure downcasts to.  Every entry
built by `listen` satisfies this by construction, since both fields
come from the same type parameter `Ev`. -/
def wf {V : Type} (d : Dispatcher V) : Bool :=
  d.listeners.all (fun l => l.event == l.evParam)

/-- The entries of the registry matching a type identity, in
registration order. -/
def matchedHandlers {V : Type} (d : Dispatcher V) (tid : TypeId) :
    List (Listener V) :=
  d.listeners.filter (fun l => l.event == tid)

/-- Sequential mutation threading, as the spec words it: feed the
event value through the listener bodies left to right. -/
def threadEvent {V : Type} (fs : List (V → V)) (v : V) : V :=
  fs.foldl (fun a f => f a) v

/-- The externally driven operations on a sync dispatcher
(`listen`, `has_listeners`, `dispatch`).  Used to characterise the
registry states reachable through the public interface. -/
inductive Op (V : Type) where
  | listenOp (tid : TypeId) (on_event : V → V)
  | queryOp (tid : TypeId)
  | dispatchOp (ev : AnyEvent V)

/-- The effect of one public operation on the dispatcher state:
`listen` appends on success and leaves the state alone on failure;
`has_listeners` is read-only; `dispatch` takes the lock but never
changes the registry (our listener bodies are pure). -/
def step {V : Type} (d : Dispatcher V) : Op V → Dispatcher V
  | Op.listenOp tid f =>
    match d.listen tid f with
    | Except.ok d' => d'
    | Except.error _ => d
  | Op.queryOp _ => d
  | Op.dispatchOp _ => d

/-- Run a sequence of public operations from a given state. -/
def runOps {V : Type} (d : Dispatcher V) (ops : List (Op V)) :
    Dispatcher V :=
  ops.foldl step d

end Sync

namespace Async

/-- Error type of `src/dispatchers/async.rs`: only `UnregisteredEvent`
is declared; the tokio lock cannot poison. -/
inductive Error where
  | UnregisteredEvent
deriving DecidableEq, Repr

/-- A registered async listener entry (struct `AsyncListener` in
`async.rs`): the `TypeId` tag plus the erased handler closure,
defunctionalised into the identity `evParam` it downcasts to and the
typed listener body `on_event` — the transformation the listener's
asynchronous work applies to the event value it receives by value. -/
structure AsyncListener (V : Type) where
  event : TypeId
  evParam : TypeId
  on_event : V → V

/-- The erased handler built in the async `Dispatcher::listen`
(async.rs lines 65-73): `downcast_ref` the `&dyn Any` to the
registered shape — `expect` panics when the runtime identity
disagrees, modelled as `none` — then clone the event and hand the
clone to the typed listener; `some v` is the completed state of the
listener's own clone. -/
def AsyncListener.handler {V : Type} (l : AsyncListener V)
    (ev : AnyEvent V) : Option V :=
  if ev.tid == l.evParam then some (l.on_event ev.payload) else none

/-- The async dispatcher: an insertion-ordered listener registry
behind a tokio `RwLock` (no poisoned state). -/
structure Dispatcher (V : Type) where
  listeners : List (AsyncListener V)

/-- The async `Dispatcher::new`: empty registry. -/
def Dispatcher.new {V : Type} : Dispatcher V :=
  { listeners := [] }

/-- The async `Dispatcher::listen` (async.rs lines 53-75): append an
entry whose tag and downcast target both come from the type parameter
`Ev`.  The operation cannot fail — it only awaits the lock. -/
def Dispatcher.listen {V : Type} (d : Dispatcher V) (tid : TypeId)
    (on_event : V → V) : Dispatcher V :=
  { d with listeners := d.listeners ++ [⟨tid, tid, on_event⟩] }

/-- The async `Dispatcher::has_listeners` (async.rs lines 78-82). -/
def Dispatcher.has_listeners {V : Type} (d : Dispatcher V)
    (tid : TypeId) : Bool :=
  d.listeners.any (fun l => l.event == tid)

/-- The entries the async dispatch filter selects
(`.filter(|listener| listener.event == TypeId::of::<Ev>())`), in
registration order. -/
def Dispatcher.matched {V : Type} (d : Dispatcher V) (tid : TypeId) :
    List (AsyncListener V) :=
  d.listeners.filter (fun l => l.event == tid)

/-- The observable outcome of the `join_all` in the async
`Dispatcher::dispatch` (async.rs lines 94-101): one completed result
per matched listener, in registration order; each handler is applied
to the caller's (immutably borrowed) event, of which it takes its own
clone. -/
def Dispatcher.dispatchResults {V : Type} (d : Dispatcher V)
    (ev : AnyEvent V) : List (Option V) :=
  (d.matched ev.tid).map (fun l => l.handler ev)

/-- The async `Dispatcher::dispatch` (async.rs lines 90-105): await
every matched listener's future via `join_all`, then return `Ok(())`.
A handler panic (failed downcast `expect`) aborts the whole call,
modelled as `none`; otherwise the call returns `some (Except.ok ())` —
the only value the source can return. -/
def Dispatcher.dispatch {V : Type} (d : Dispatcher V)
    (ev : AnyEvent V) : Option (Except Error Unit) :=
  if (d.dispatchResults ev).all Option.isSome then
    some (Except.ok ())
  else
    none

/-- The caller's event after an async dispatch: `dispatch` borrows
`&Ev` immutably (async.rs line 92), so the caller's value is exactly
what it was before the call. -/
def Dispatcher.dispatchEventAfter {V : Type} (_ : Dispatcher V)
    (ev : AnyEvent V) : AnyEvent V :=
  ev

/-- Well-formedness of the async registry: every entry's tag agrees
with the identity its closure downcasts to; holds by construction for
entries made by `listen`. -/
def wf {V : Type} (d : Dispatcher V) : Bool :=
  d.listeners.all (fun l => l.event == l.evParam)

end Async

namespace Null

/-- The null dispatcher (`src/dispatchers/null.rs`): wraps a sync
dispatcher it delegates registration and queries to. -/
structure Dispatcher (V : Type) where
  dispatcher : Sync.Dispatcher V

/-- The null `Dispatcher::new`. -/
def Dispatcher.new {V : Type} : Dispatcher V :=
  { dispatcher := Sync.Dispatcher.new }

/-- The null `Dispatcher::listen` (null.rs lines 21-26): delegate to
the inner sync dispatcher. -/
def Dispatcher.listen {V : Type} (n : Dispatcher V) (tid : TypeId)
    (on_event : V → V) : Except Sync.Error (Dispatcher V) :=
  (n.dispatcher.listen tid on_event).map (fun d => { dispatcher := d })

/-- The null `Dispatcher::has_listeners` (null.rs lines 33-35):
delegate to the inner sync dispatcher. -/
def Dispatcher.has_listeners {V : Type} (n : Dispatcher V)
    (tid : TypeId) : Except Sync.Error Bool :=
  n.dispatcher.has_listeners tid

/-- The null `Dispatcher::dispatch` (null.rs lines 38-40): an empty
body — the caller's `&mut Ev` is untouched. -/
def Dispatcher.dispatch {V : Type} (_ : Dispatcher V)
    (ev : AnyEvent V) : AnyEvent V :=
  ev

/-- No listener entry is ever invoked by a null dispatch. -/
def Dispatcher.dispatchInvoked {V : Type} (_ : Dispatcher V)
    (_ : AnyEvent V) : List (Sync.Listener V) :=
  []

end Null

/-- A sync dispatcher state reachable through the public interface,
starting from `Dispatcher::new`. -/
def Sync.Reachable {V : Type} (d : Sync.Dispatcher V) : Prop :=
  ∃ ops : List (Sync.Op V), Sync.runOps Sync.Dispatcher.new ops = d

/-- An async dispatcher state reachable through the public interface:
the result of some sequence of `listen` registrations from
`Dispatcher::new` (queries and dispatches do not change the state). -/
def Async.Reachable {V : Type} (d : Async.Dispatcher V) : Prop :=
  ∃ regs : List (TypeId × (V → V)),
    regs.foldl (fun d r => d.listen r.1 r.2) Async.Dispatcher.new = d

/-- A concrete sync dispatcher used to exercise the theorems: two
listeners registered for shape `0` (increment, then times ten) and one
listener registered for shape `1`. -/
def sampleSync : Sync.Dispatcher Nat :=
  { listeners :=
      [⟨0, 0, fun n => n + 1⟩, ⟨0, 0, fun n => n * 10⟩,
       ⟨1, 1, fun n => n + 100⟩],
    poisoned := false }

/-- The same registrations on the async engine. -/
def sampleAsync : Async.Dispatcher Nat :=
  { listeners :=
      [⟨0, 0, fun n => n + 1⟩, ⟨0, 0, fun n => n * 10⟩,
       ⟨1, 1, fun n => n + 100⟩] }

/-- A concrete null dispatcher holding one listener for shape `0`. -/
def sampleNull : Null.Dispatcher Nat :=
  { dispatcher := { listeners := [⟨0, 0, fun n => n + 1⟩], poisoned := false } }

/-! ## Supporting lemmas -/

namespace Sync

theorem wf_new {V : Type} : wf (Dispatcher.new : Dispatcher V) = true := rfl

theorem wf_step {V : Type} (d : Dispatcher V) (op : Op V)
    (h : wf d = true) : wf (step d op) = true := by
  cases op with
  | listenOp t f =>
    unfold step Dispatcher.listen
    by_cases hp : d.poisoned = true
    · simp [hp, h]
    · simp only [Bool.not_eq_true] at hp
      simp only [hp, Bool.false_eq_true, if_false]
      simp only [wf, List.all_append] at h ⊢
      simp [h]
  | queryOp t => exact h
  | dispatchOp ev => exact h

theorem wf_runOps {V : Type} (ops : List (Op V)) :
    ∀ d : Dispatcher V, wf d = true → wf (runOps d ops) = true := by
  induction ops with
  | nil => intro d h; exact h
  | cons op ops ih => intro d h; exact ih (step d op) (wf_step d op h)

theorem wf_of_reachable {V : Type} (d : Dispatcher V)
    (h : Reachable d) : wf d = true := by
  obtain ⟨ops, rfl⟩ := h
  exact wf_runOps ops Dispatcher.new wf_new

theorem dispatchGo_eq {V : Type} (tid : TypeId) (ls : List (Listener V))
    (hwf : ∀ l ∈ ls, l.event = l.evParam) :
    ∀ v : V, dispatchGo tid ls ⟨tid, v⟩ =
      (ls.filter (fun l => l.event == tid),
       Except.ok ⟨tid, threadEvent
         ((ls.filter (fun l => l.event == tid)).map (fun l => l.on_event)) v⟩) := by
  induction ls with
  | nil => intro v; simp [dispatchGo, threadEvent]
  | cons l ls ih =>
    intro v
    have hl : l.event = l.evParam := hwf l (List.mem_cons_self l ls)
    have iht := ih (fun x hx => hwf x (List.mem_cons_of_mem l hx))
    by_cases h : l.event = tid
    · simp [dispatchGo, Listener.handler, h, ← hl, iht, threadEvent]
    · simp [dispatchGo, h, iht]

theorem dispatch_eq {V : Type} (d : Dispatcher V) (ev : AnyEvent V)
    (hwf : wf d = true) (hp : d.poisoned = false) :
    d.dispatch ev = Except.ok ⟨ev.tid, threadEvent
      ((matchedHandlers d ev.tid).map (fun l => l.on_event)) ev.payload⟩ := by
  have hwf' : ∀ l ∈ d.listeners, l.event = l.evParam := by
    intro l hlm
    simpa using List.all_eq_true.mp hwf l hlm
  have h := dispatchGo_eq ev.tid d.listeners hwf' ev.payload
  rw [show (⟨ev.tid, ev.payload⟩ : AnyEvent V) = ev from rfl] at h
  simp [Dispatcher.dispatch, hp, matchedHandlers, h]

theorem dispatchInvoked_eq {V : Type} (d : Dispatcher V) (ev : AnyEvent V)
    (hwf : wf d = true) (hp : d.poisoned = false) :
    d.dispatchInvoked ev = matchedHandlers d ev.tid := by
  have hwf' : ∀ l ∈ d.listeners, l.event = l.evParam := by
    intro l hlm
    simpa using List.all_eq_true.mp hwf l hlm
  have h := dispatchGo_eq ev.tid d.listeners hwf' ev.payload
  rw [show (⟨ev.tid, ev.payload⟩ : AnyEvent V) = ev from rfl] at h
  simp [Dispatcher.dispatchInvoked, hp, matchedHandlers, h]

theorem mem_dispatchGo_fst {V : Type} (tid : TypeId) :
    ∀ (ls : List (Listener V)) (ev : AnyEvent V) (l : Listener V),
      l ∈ (dispatchGo tid ls ev).1 → l.event = tid := by
  intro ls
  induction ls with
  | nil => intro ev l h; simp [dispatchGo] at h
  | cons x ls ih =>
    intro ev l h
    by_cases hx : x.event = tid
    · have hxb : (x.event == tid) = true := by simp [hx]
      cases hh : x.handler ev with
      | ok ev' =>
        simp only [dispatchGo, hxb, if_true, hh] at h
        rcases List.mem_cons.mp h with rfl | hmem
        · exact hx
        · exact ih ev' l hmem
      | error e =>
        simp only [dispatchGo, hxb, if_true, hh, List.mem_singleton] at h
        subst h
        exact hx
    · have hxb : (x.event == tid) = false := by simp [hx]
      simp only [dispatchGo, hxb, Bool.false_eq_true, if_false] at h
      exact ih ev l h

theorem dispatchGo_no_match {V : Type} (tid : TypeId) :
    ∀ (ls : List (Listener V)) (ev : AnyEvent V),
      (∀ l ∈ ls, (l.event == tid) = false) →
      dispatchGo tid ls ev = ([], Except.ok ev) := by
  intro ls
  induction ls with
  | nil => intro ev _; rfl
  | cons x ls ih =>
    intro ev h
    have hx := h x (List.mem_cons_self x ls)
    simp [dispatchGo, hx, ih ev (fun l hl => h l (List.mem_cons_of_mem x hl))]

theorem listen_ok_iff {V : Type} (d d' : Dispatcher V) (tid : TypeId)
    (f : V → V) :
    d.listen tid f = Except.ok d' ↔
      d.poisoned = false ∧
      d' = { d with listeners := d.listeners ++ [⟨tid, tid, f⟩] } := by
  unfold Dispatcher.listen
  by_cases hp : d.poisoned = true
  · simp [hp]
  · simp only [Bool.not_eq_true] at hp
    simp [hp, eq_comm]

theorem step_poisoned {V : Type} (d : Dispatcher V) (op : Op V) :
    (step d op).poisoned = d.poisoned := by
  cases op with
  | listenOp t f =>
    unfold step Dispatcher.listen
    by_cases hp : d.poisoned = true
    · simp [hp]
    · simp only [Bool.not_eq_true] at hp
      simp [hp]
  | queryOp t => rfl
  | dispatchOp ev => rfl

theorem step_any_mono {V : Type} (d : Dispatcher V) (op : Op V)
    (tid : TypeId)
    (h : d.listeners.any (fun l => l.event == tid) = true) :
    (step d op).listeners.any (fun l => l.event == tid) = true := by
  cases op with
  | listenOp t f =>
    unfold step Dispatcher.listen
    by_cases hp : d.poisoned = true
    · simp [hp, h]
    · simp only [Bool.not_eq_true] at hp
      simp [hp, List.any_append, h]
  | queryOp t => exact h
  | dispatchOp ev => exact h

theorem runOps_poisoned {V : Type} (ops : List (Op V)) :
    ∀ d : Dispatcher V, (runOps d ops).poisoned = d.poisoned := by
  induction ops with
  | nil => intro d; rfl
  | cons op ops ih =>
    intro d
    exact (ih (step d op)).trans (step_poisoned d op)

theorem runOps_any_mono {V : Type} (ops : List (Op V)) :
    ∀ d : Dispatcher V, ∀ tid : TypeId,
      d.listeners.any (fun l => l.event == tid) = true →
      (runOps d ops).listeners.any (fun l => l.event == tid) = true := by
  induction ops with
  | nil => intro d tid h; exact h
  | cons op ops ih =>
    intro d tid h
    exact ih (step d op) tid (step_any_mono d op tid h)

end Sync

namespace Async

theorem async_wf_new {V : Type} : wf (Dispatcher.new : Dispatcher V) = true := rfl

theorem wf_listen {V : Type} (d : Dispatcher V) (tid : TypeId)
    (f : V → V) (h : wf d = true) : wf (d.listen tid f) = true := by
  simp only [wf, Dispatcher.listen, List.all_append] at h ⊢
  simp [h]

theorem async_wf_of_reachable {V : Type} (d : Dispatcher V)
    (h : Reachable d) : wf d = true := by
  obtain ⟨regs, rfl⟩ := h
  induction regs using List.reverseRecOn with
  | nil => rfl
  | append_singleton regs r ih =>
    rw [List.foldl_append]
    exact wf_listen _ r.1 r.2 ih

theorem matched_handler_eq {V : Type} (d : Dispatcher V)
    (ev : AnyEvent V) (hwf : wf d = true) (l : AsyncListener V)
    (hl : l ∈ d.matched ev.tid) :
    l.handler ev = some (l.on_event ev.payload) := by
  have hmem : l ∈ d.listeners := (List.mem_filter.mp hl).1
  have hev : l.event = ev.tid := by
    have := (List.mem_filter.mp hl).2
    simpa [Dispatcher.matched] using this
  have hwf' : l.event = l.evParam := by
    simpa using List.all_eq_true.mp hwf l hmem
  simp [AsyncListener.handler, ← hwf', hev]

theorem dispatchResults_eq {V : Type} (d : Dispatcher V)
    (ev : AnyEvent V) (hwf : wf d = true) :
    d.dispatchResults ev =
      (d.matched ev.tid).map (fun l => some (l.on_event ev.payload)) := by
  unfold Dispatcher.dispatchResults
  apply List.map_congr_left
  intro l hl
  exact matched_handler_eq d ev hwf l hl

end Async

/-! ## Claim theorems -/

/-- C2: the Sequential engine's dispatch hands the same mutable event
to each matched listener, one at a time in registration order: the
invoked entries are exactly the registered entries matching the
event's shape, in order, and the returned event carries the left fold
of their bodies over the initial payload — listener i+1 receives
listener i's output and the caller receives the last listener's
output. -/
theorem sync_dispatch_threads_mutations {V : Type}
    (d : Sync.Dispatcher V) (ev : AnyEvent V)
    (hwf : Sync.wf d = true) (hp : d.poisoned = false) :
    d.dispatch ev = Except.ok ⟨ev.tid, Sync.threadEvent
      ((Sync.matchedHandlers d ev.tid).map (fun l => l.on_event))
      ev.payload⟩ ∧
    d.dispatchInvoked ev = Sync.matchedHandlers d ev.tid :=
  ⟨Sync.dispatch_eq d ev hwf hp, Sync.dispatchInvoked_eq d ev hwf hp⟩

/-- C2 witness: with listeners `(+1)` then `(*10)` registered for
shape 0, dispatching `⟨0, 5⟩` returns the event with payload
`(5 + 1) * 10 = 60` and invokes exactly the two matched entries. -/
theorem sync_dispatch_threads_mutations_witness :
    sampleSync.dispatch ⟨0, 5⟩ = Except.ok ⟨0, 60⟩ ∧
    sampleSync.dispatchInvoked ⟨0, 5⟩ =
      Sync.matchedHandlers sampleSync 0 :=
  sync_dispatch_threads_mutations sampleSync ⟨0, 5⟩ (by decide) (by decide)

/-- C3: type isolation on both engines: every listener entry invoked
by a dispatch of an event carries the tag of that event's shape, so
for a distinct shape `uTid ≠ ev.tid` no entry registered for `uTid`
is ever invoked. -/
theorem dispatch_type_isolation {V : Type} (d : Sync.Dispatcher V)
    (ad : Async.Dispatcher V) (ev : AnyEvent V) (uTid : TypeId)
    (hne : uTid ≠ ev.tid) :
    (∀ l ∈ d.dispatchInvoked ev, l.event = ev.tid ∧ l.event ≠ uTid) ∧
    (∀ l ∈ ad.matched ev.tid, l.event = ev.tid ∧ l.event ≠ uTid) := by
  constructor
  · intro l hl
    unfold Sync.Dispatcher.dispatchInvoked at hl
    by_cases hpo : d.poisoned = true
    · simp [hpo] at hl
    · simp only [Bool.not_eq_true] at hpo
      simp only [hpo, Bool.false_eq_true, if_false] at hl
      have hev := Sync.mem_dispatchGo_fst ev.tid d.listeners ev l hl
      exact ⟨hev, fun hc => hne (hc ▸ hev)⟩
  · intro l hl
    have hev : l.event = ev.tid := by
      have := (List.mem_filter.mp hl).2
      simpa using this
    exact ⟨hev, fun hc => hne (hc ▸ hev)⟩

/-- C3 witness: dispatching shape 0 on the sample dispatchers, the
first matched entry is invoked and is registered for shape 0, not for
shape 1; applied on both engines. -/
theorem dispatch_type_isolation_witness :
    (⟨0, 0, fun n => n + 1⟩ : Sync.Listener Nat).event = 0 ∧
    (⟨0, 0, fun n => n + 1⟩ : Sync.Listener Nat).event ≠ 1 :=
  (dispatch_type_isolation sampleSync sampleAsync ⟨0, 5⟩ 1
      (by decide)).1
    ⟨0, 0, fun n => n + 1⟩
    (by simp [sampleSync, Sync.Dispatcher.dispatchInvoked, Sync.dispatchGo,
      Sync.Listener.handler])

/-- C4: on any reachable sync dispatcher, dispatch never returns
`UnregisteredEvent`: the dispatch filter admits only entries whose tag
equals the event's shape, and by construction each such entry's
downcast target agrees with its tag, so every invoked handler's
downcast succeeds.  When the lock is healthy dispatch succeeds, and an
error return can only be `LockPoisoned` with the lock poisoned. -/
theorem sync_dispatch_no_unregistered {V : Type}
    (d : Sync.Dispatcher V) (ev : AnyEvent V)
    (hreach : Sync.Reachable d) :
    (d.poisoned = false →
      ∃ ev' : AnyEvent V, d.dispatch ev = Except.ok ev') ∧
    (∀ e : Sync.Error, d.dispatch ev = Except.error e →
      e = Sync.Error.LockPoisoned ∧ d.poisoned = true) := by
  have hwf : Sync.wf d = true := Sync.wf_of_reachable d hreach
  constructor
  · intro hp
    exact ⟨_, Sync.dispatch_eq d ev hwf hp⟩
  · intro e he
    by_cases hpo : d.poisoned = true
    · refine ⟨?_, hpo⟩
      unfold Sync.Dispatcher.dispatch at he
      simp only [hpo, if_true] at he
      exact (Except.error.injEq _ _).mp he.symm
    · simp only [Bool.not_eq_true] at hpo
      rw [Sync.dispatch_eq d ev hwf hpo] at he
      cases he

/-- C4 witness: the sample dispatcher is reachable by three `listen`
calls, its lock is healthy, and dispatching `⟨1, 2⟩` succeeds. -/
theorem sync_dispatch_no_unregistered_witness :
    ∃ ev' : AnyEvent Nat, sampleSync.dispatch ⟨1, 2⟩ = Except.ok ev' :=
  (sync_dispatch_no_unregistered sampleSync ⟨1, 2⟩
      ⟨[Sync.Op.listenOp 0 (fun n => n + 1),
        Sync.Op.listenOp 0 (fun n => n * 10),
        Sync.Op.listenOp 1 (fun n => n + 100)], rfl⟩).1
    (by decide)

/-- C5: registration visibility is monotonic: once `listen` for shape
`tid` succeeds, `has_listeners tid` answers `Ok(true)`, and it keeps
answering `Ok(true)` after every further sequence of `listen`,
`has_listeners` and `dispatch` operations — no operation removes an
entry from the registry. -/
theorem has_listeners_monotonic {V : Type} (d d' : Sync.Dispatcher V)
    (tid : TypeId) (f : V → V) (h : d.listen tid f = Except.ok d')
    (ops : List (Sync.Op V)) :
    (Sync.runOps d' ops).has_listeners tid = Except.ok true := by
  obtain ⟨hp, rfl⟩ := (Sync.listen_ok_iff d d' tid f).mp h
  have hpo : (Sync.runOps
      { d with listeners := d.listeners ++ [⟨tid, tid, f⟩] }
      ops).poisoned = false := by
    rw [Sync.runOps_poisoned]
    exact hp
  have hany : (Sync.runOps
      { d with listeners := d.listeners ++ [⟨tid, tid, f⟩] }
      ops).listeners.any (fun l => l.event == tid) = true := by
    apply Sync.runOps_any_mono
    simp [List.any_append]
  simp [Sync.Dispatcher.has_listeners, hpo, hany]

/-- C5 witness: after registering a listener for shape 7 on a fresh
dispatcher, `has_listeners 7` still answers `Ok(true)` after a further
registration for shape 8, a query, and a dispatch. -/
theorem has_listeners_monotonic_witness :
    (Sync.runOps
      { listeners := [⟨7, 7, fun n => n + 1⟩], poisoned := false }
      [Sync.Op.listenOp 8 (fun n => n * 2), Sync.Op.queryOp 7,
       Sync.Op.dispatchOp ⟨7, 0⟩]).has_listeners 7 = Except.ok true :=
  has_listeners_monotonic (Sync.Dispatcher.new (V := Nat)) _ 7
    (fun n => n + 1) rfl
    [Sync.Op.listenOp 8 (fun n => n * 2), Sync.Op.queryOp 7,
     Sync.Op.dispatchOp ⟨7, 0⟩]

/-- C6: dispatching an event whose shape has zero registered listeners
is a silent no-op on every engine: the sync engine returns the event
unchanged with success and invokes nothing, the async engine returns
`Ok(())` with an empty result set, and the null engine is always a
no-op. -/
theorem zero_listener_dispatch_noop {V : Type} (d : Sync.Dispatcher V)
    (ad : Async.Dispatcher V) (ev : AnyEvent V)
    (hd : Sync.matchedHandlers d ev.tid = [])
    (hp : d.poisoned = false)
    (ha : ad.matched ev.tid = []) :
    d.dispatch ev = Except.ok ev ∧ d.dispatchInvoked ev = [] ∧
    ad.dispatch ev = some (Except.ok ()) ∧
    ad.dispatchResults ev = [] ∧
    ∀ n : Null.Dispatcher V,
      n.dispatch ev = ev ∧ n.dispatchInvoked ev = [] := by
  have hnone : ∀ l ∈ d.listeners, (l.event == ev.tid) = false := by
    intro l hl
    by_contra hc
    simp only [Bool.not_eq_false] at hc
    have : l ∈ Sync.matchedHandlers d ev.tid :=
      List.mem_filter.mpr ⟨hl, hc⟩
    rw [hd] at this
    cases this
  have hgo := Sync.dispatchGo_no_match ev.tid d.listeners ev hnone
  have har : ad.dispatchResults ev = [] := by
    unfold Async.Dispatcher.dispatchResults
    rw [ha]
    rfl
  refine ⟨?_, ?_, ?_, har, fun n => ⟨rfl, rfl⟩⟩
  · simp [Sync.Dispatcher.dispatch, hp, hgo]
  · simp [Sync.Dispatcher.dispatchInvoked, hp, hgo]
  · simp [Async.Dispatcher.dispatch, har]

/-- C6 witness: the sample dispatchers have no listener for shape 9,
so dispatching `⟨9, 4⟩` succeeds, changes nothing and invokes
nothing on the sync, async and null engines. -/
theorem zero_listener_dispatch_noop_witness :
    sampleSync.dispatch ⟨9, 4⟩ = Except.ok ⟨9, 4⟩ ∧
    sampleSync.dispatchInvoked ⟨9, 4⟩ = [] ∧
    sampleAsync.dispatch ⟨9, 4⟩ = some (Except.ok ()) ∧
    sampleAsync.dispatchResults ⟨9, 4⟩ = [] ∧
    ∀ n : Null.Dispatcher Nat,
      n.dispatch ⟨9, 4⟩ = ⟨9, 4⟩ ∧ n.dispatchInvoked ⟨9, 4⟩ = [] :=
  zero_listener_dispatch_noop sampleSync sampleAsync ⟨9, 4⟩
    rfl rfl rfl

/-- C7: the Null engine suppresses delivery while keeping the
registration bookkeeping of the Sequential engine it wraps: after a
successful `listen` for shape `tid`, `has_listeners tid` answers
`Ok(true)` exactly as the inner sync dispatcher does, yet dispatching
any event returns it unchanged and invokes no listener. -/
theorem null_dispatch_suppresses {V : Type} (n n' : Null.Dispatcher V)
    (tid : TypeId) (f : V → V) (ev : AnyEvent V)
    (h : n.listen tid f = Except.ok n') :
    n'.has_listeners tid = Except.ok true ∧
    n'.dispatch ev = ev ∧
    n'.dispatchInvoked ev = [] ∧
    n'.has_listeners tid = n'.dispatcher.has_listeners tid := by
  have hinner : ∃ d', n.dispatcher.listen tid f = Except.ok d' ∧
      n' = { dispatcher := d' } := by
    unfold Null.Dispatcher.listen at h
    cases hl : n.dispatcher.listen tid f with
    | ok d' =>
      rw [hl] at h
      exact ⟨d', rfl, by cases h; rfl⟩
    | error e =>
      rw [hl] at h
      cases h
  obtain ⟨d', hl, rfl⟩ := hinner
  obtain ⟨hp, rfl⟩ := (Sync.listen_ok_iff _ _ tid f).mp hl
  refine ⟨?_, rfl, rfl, rfl⟩
  simp [Null.Dispatcher.has_listeners, Sync.Dispatcher.has_listeners,
    hp, List.any_append]

/-- C7 witness: registering `(+1)` for shape 0 on a fresh null
dispatcher, `has_listeners 0` answers `Ok(true)` while dispatching
`⟨0, 5⟩` leaves the event unchanged and invokes nothing. -/
theorem null_dispatch_suppresses_witness :
    sampleNull.has_listeners 0 = Except.ok true ∧
    sampleNull.dispatch ⟨0, 5⟩ = ⟨0, 5⟩ ∧
    sampleNull.dispatchInvoked ⟨0, 5⟩ = [] ∧
    sampleNull.has_listeners 0 =
      sampleNull.dispatcher.has_listeners 0 :=
  null_dispatch_suppresses Null.Dispatcher.new sampleNull 0
    (fun n => n + 1) ⟨0, 5⟩ rfl

/-- C1 counterexample: register `f1 = (+1)` then `f2 = (*10)` for
shape 0 on both engines and dispatch the event `⟨0, 5⟩`.  Under the
claimed sequential-awaiting, mutation-threading semantics, `f2` would
receive `f1`'s output `6` and compute `60` — exactly what the
Sequential engine produces.  The Concurrent engine instead hands `f2`
its own clone of the original event: the joined results are
`[some 6, some 50]`, so `f2` received `5`, not `6`, and its result
`some 50` differs from the `some 60` that mutation visibility would
force.  The two engines are therefore not equivalent in inter-listener
mutation visibility. -/
theorem concurrent_not_mutation_threading :
    ((Async.Dispatcher.new.listen 0 (fun n => n + 1)).listen 0
        (fun n => n * 10)).dispatchResults ⟨0, 5⟩ = [some 6, some 50] ∧
    (some 50 : Option Nat) ≠ some 60 ∧
    ({ listeners := [⟨0, 0, fun n => n + 1⟩, ⟨0, 0, fun n => n * 10⟩],
       poisoned := false } : Sync.Dispatcher Nat).dispatch ⟨0, 5⟩ =
      Except.ok ⟨0, 60⟩ :=
  ⟨rfl, by decide, rfl⟩

/-- C1 amended: the Concurrent engine's dispatch still selects the
matched listeners in registration order, but hands each of them its
own clone of the original event: the joined results are exactly the
matched listener bodies each applied to the original payload.  A
listener's mutation is confined to its own clone, so no listener's
effect is visible to any other and the engine is not equivalent to the
Sequential engine's mutation threading. -/
theorem concurrent_dispatch_clones_per_listener {V : Type}
    (d : Async.Dispatcher V) (ev : AnyEvent V)
    (hwf : Async.wf d = true) :
    d.dispatchResults ev =
      (d.matched ev.tid).map (fun l => some (l.on_event ev.payload)) :=
  Async.dispatchResults_eq d ev hwf

/-- C1 amended witness: on the sample async dispatcher the joined
results of dispatching `⟨0, 5⟩` are the two matched bodies applied to
the original payload `5`. -/
theorem concurrent_dispatch_clones_per_listener_witness :
    sampleAsync.dispatchResults ⟨0, 5⟩ = [some 6, some 50] :=
  concurrent_dispatch_clones_per_listener sampleAsync ⟨0, 5⟩
    (by decide)

/-- C8: the Concurrent engine's dispatch joins every matched
listener's future before returning: the joined result list carries one
completed result per matched listener — none missing, none abandoned —
and each matched listener's work indeed reaches completion. -/
theorem concurrent_dispatch_joins_all {V : Type}
    (d : Async.Dispatcher V) (ev : AnyEvent V)
    (hwf : Async.wf d = true) :
    (d.dispatchResults ev).length = (d.matched ev.tid).length ∧
    ∀ l ∈ d.matched ev.tid,
      l.handler ev ∈ d.dispatchResults ev ∧
      (l.handler ev).isSome = true := by
  constructor
  · unfold Async.Dispatcher.dispatchResults
    exact List.length_map _ _
  · intro l hl
    refine ⟨List.mem_map_of_mem _ hl, ?_⟩
    rw [Async.matched_handler_eq d ev hwf l hl]
    rfl

/-- C8 witness: dispatching `⟨0, 5⟩` on the sample async dispatcher
yields as many completed results as matched listeners, and the first
matched listener's completed work is among them. -/
theorem concurrent_dispatch_joins_all_witness :
    (sampleAsync.dispatchResults ⟨0, 5⟩).length =
      (sampleAsync.matched 0).length ∧
    (⟨0, 0, fun n => n + 1⟩ : Async.AsyncListener Nat).handler ⟨0, 5⟩ ∈
      sampleAsync.dispatchResults ⟨0, 5⟩ :=
  ⟨(concurrent_dispatch_joins_all sampleAsync ⟨0, 5⟩ (by decide)).1,
   ((concurrent_dispatch_joins_all sampleAsync ⟨0, 5⟩ (by decide)).2
      ⟨0, 0, fun n => n + 1⟩ (by
        simp [sampleAsync, Async.Dispatcher.matched])).1⟩

/-- C9: the Concurrent engine's dispatch borrows the event immutably
and hands every matched listener its own independent clone: each
matched listener's handler computes from the original payload alone,
unaffected by any other listener's mutation, and the caller's event is
exactly what it was before the call. -/
theorem concurrent_dispatch_frame {V : Type} (d : Async.Dispatcher V)
    (ev : AnyEvent V) (hwf : Async.wf d = true) :
    (∀ l ∈ d.matched ev.tid,
      l.handler ev = some (l.on_event ev.payload)) ∧
    d.dispatchEventAfter ev = ev :=
  ⟨fun l hl => Async.matched_handler_eq d ev hwf l hl, rfl⟩

/-- C9 witness: on the sample async dispatcher, the second matched
listener's handler computes `5 * 10 = 50` from the original payload
`5` — untouched by the first listener's increment — and the caller's
event is returned unchanged. -/
theorem concurrent_dispatch_frame_witness :
    (⟨0, 0, fun n => n * 10⟩ : Async.AsyncListener Nat).handler ⟨0, 5⟩ =
      some 50 ∧
    sampleAsync.dispatchEventAfter ⟨0, 5⟩ = ⟨0, 5⟩ :=
  ⟨(concurrent_dispatch_frame sampleAsync ⟨0, 5⟩ (by decide)).1
      ⟨0, 0, fun n => n * 10⟩ (by
        simp [sampleAsync, Async.Dispatcher.matched]),
   (concurrent_dispatch_frame sampleAsync ⟨0, 5⟩ (by decide)).2⟩

/-- C10: on any well-formed async registry the Concurrent engine's
dispatch returns `Ok(())`: every matched handler's downcast succeeds,
so no panic occurs and the single return path yields `Ok(())`; the
declared `UnregisteredEvent` error is never produced.  (`listen` and
`has_listeners` are total in the model, as in the source: the tokio
lock has no poisoned state, so neither returns an error type at
all.) -/
theorem concurrent_dispatch_always_ok {V : Type}
    (d : Async.Dispatcher V) (ev : AnyEvent V)
    (hwf : Async.wf d = true) :
    d.dispatch ev = some (Except.ok ()) ∧
    d.dispatch ev ≠ some (Except.error Async.Error.UnregisteredEvent) := by
  have hall : (d.dispatchResults ev).all Option.isSome = true := by
    rw [Async.dispatchResults_eq d ev hwf]
    simp
  constructor
  · simp [Async.Dispatcher.dispatch, hall]
  · simp [Async.Dispatcher.dispatch, hall]

/-- C10 witness: dispatching `⟨0, 5⟩` and also an unregistered shape
`⟨9, 4⟩` on the sample async dispatcher both return `Ok(())`. -/
theorem concurrent_dispatch_always_ok_witness :
    sampleAsync.dispatch ⟨0, 5⟩ = some (Except.ok ()) ∧
    sampleAsync.dispatch ⟨9, 4⟩ = some (Except.ok ()) :=
  ⟨(concurrent_dispatch_always_ok sampleAsync ⟨0, 5⟩ (by decide)).1,
   (concurrent_dispatch_always_ok sampleAsync ⟨9, 4⟩ (by decide)).1⟩

end Epicenter
